import Mathlib

/-!
Verification of the ObjectStorageQueue consumption core
(`src/Storages/ObjectStorageQueue/ObjectStorageQueueSource.h`).

The repository source is a header: it declares the data model
(`FileState`, `ProcessedFile`, `CommitSettings`, `ProcessingProgress`,
`FileIterator` with its `listed_keys_cache`, `bucket_holders`,
`objects_to_retry`) and the operations (`nextImpl`, `returnForRetry`,
`releaseFinishedBuckets`, `isFinished`, `commit`).  Types, fields and the
initial state written in the header are embedded directly from it; the
behaviour of the declared operations, whose definitions are not part of the
given source, is modelled from the specification (each such definition says
so in its doc comment).
-/

namespace OSQ

/-- Object path, the identity of a descriptor (`ObjectInfo::getPath`). -/
abbrev Path := String

/-- Partition identifier (`ObjectStorageQueueMetadata::Bucket`),
derived deterministically from an object's path. -/
abbrev Bucket := Nat

/-- Consumer identity (`ObjectStorageQueueMetadata::Processor`). -/
abbrev Processor := Nat

/-- An object descriptor as surfaced by the lister
(`Source::ObjectInfo`): identity is the path. -/
structure ObjectInfo where
  path : Path
deriving DecidableEq, Repr

/-! ## Per-file lifecycle state (Queue Operator)

`FileState` and the `ProcessedFile` constructor are embedded from the
header (lines 171–187), which is part of the given source. -/

/-- `enum class FileState { Processing, ErrorOnRead, Cancelled, Processed }`
from the header. -/
inductive FileState where
  | Processing
  | ErrorOnRead
  | Cancelled
  | Processed
deriving DecidableEq, Repr

/-- The terminal states of the per-file state machine: every state other
than `Processing`. -/
def FileState.isTerminal : FileState → Bool
  | .Processing => false
  | .ErrorOnRead => true
  | .Cancelled => true
  | .Processed => true

/-- `struct ProcessedFile` from the header: lifecycle state, the file's
metadata reference (identified here by its path), and the exception text
recorded during reading. -/
structure ProcessedFile where
  state : FileState
  path : Path
  exception_during_read : String
deriving DecidableEq, Repr

/-- The `ProcessedFile(metadata_)` constructor from the header:
`state(FileState::Processing), metadata(metadata_)`, with no exception
recorded yet. -/
def initProcessedFile (path : Path) : ProcessedFile :=
  { state := .Processing, path := path, exception_during_read := "" }

/-- Modelled from the spec: the allowed transitions of the per-file state
machine (`Processing → {Processed, ErrorOnRead, Cancelled}`); the header
declares only the enum, the transition discipline is the spec's. -/
inductive FileTransition : FileState → FileState → Prop
  | processed : FileTransition .Processing .Processed
  | errorOnRead : FileTransition .Processing .ErrorOnRead
  | cancelled : FileTransition .Processing .Cancelled

/-! ## Commit (Queue Operator) -/

/-- Durable per-path status written to the Metadata Store by `commit`. -/
inductive FileStatus where
  | Committed
  | Failed (msg : String)
deriving DecidableEq, Repr

/-- The externally visible effects of one `commit` call: the per-path
status writes against the Metadata Store, the delete/move actions issued
(`applyActionAfterProcessing`), and whether the held buckets were released
(`releaseFinishedBuckets` invoked). -/
structure CommitEffects where
  status_writes : List (Path × FileStatus)
  actions : List Path
  buckets_released : Bool
deriving DecidableEq, Repr

/-- Modelled from the spec: `commit(insert_succeeded, exception_message)`
(declared in the header, line 147, body not in the given source).
On success every `Processed` file is marked committed and, when file
deletion is enabled, its delete/move action is issued; on failure every
file of the batch is marked failed with `exception_message` (overriding the
per-file `exception_during_read`), no delete/move action is issued.  In
both cases the held buckets are released. -/
def commit (insert_succeeded : Bool) (exception_message : String)
    (deletion_enabled : Bool) (files : List ProcessedFile) : CommitEffects :=
  if insert_succeeded then
    { status_writes := files.map fun f =>
        (f.path, if f.state = .Processed then .Committed
                 else .Failed f.exception_during_read)
      actions := if deletion_enabled then
          (files.filter fun f => f.state == .Processed).map (·.path)
        else []
      buckets_released := true }
  else
    { status_writes := files.map fun f => (f.path, .Failed exception_message)
      actions := []
      buckets_released := true }

/-! ## Progress tracking and commit thresholds -/

/-- `struct CommitSettings` from the header: the four immutable
thresholds. -/
structure CommitSettings where
  max_processed_files_before_commit : Nat
  max_processed_rows_before_commit : Nat
  max_processed_bytes_before_commit : Nat
  max_processing_time_sec_before_commit : Nat
deriving DecidableEq, Repr

/-- `struct ProcessingProgress` from the header: counters for the current
open commit batch (the monotonic stopwatch is embedded as its elapsed
seconds reading). -/
structure ProcessingProgress where
  processed_files : Nat
  processed_rows : Nat
  processed_bytes : Nat
  elapsed_sec : Nat
deriving DecidableEq, Repr

/-- The progress counters at the opening of a batch: all zero. -/
def ProcessingProgress.zero : ProcessingProgress :=
  { processed_files := 0, processed_rows := 0, processed_bytes := 0, elapsed_sec := 0 }

/-- Modelled from the spec: the threshold check `exceeds(CommitSettings)`
evaluated by the Queue Operator — any one of the four thresholds being
exceeded triggers a commit. -/
def ProcessingProgress.exceeds (pr : ProcessingProgress) (cs : CommitSettings) : Bool :=
  pr.processed_files > cs.max_processed_files_before_commit ||
  pr.processed_rows > cs.max_processed_rows_before_commit ||
  pr.processed_bytes > cs.max_processed_bytes_before_commit ||
  pr.elapsed_sec > cs.max_processing_time_sec_before_commit

/-- The per-batch state of the Queue Operator that the commit-threshold
discipline acts on: the settings, the open batch's progress and processed
file list, and a count of the commits performed so far. -/
structure OperatorState where
  commit_settings : CommitSettings
  progress : ProcessingProgress
  processed_files : List ProcessedFile
  commits_done : Nat
deriving DecidableEq, Repr

/-- Modelled from the spec: finalizing the open batch — the processed-file
list is cleared and the progress counters are reset at the commit
boundary. -/
def commitAndReset (st : OperatorState) : OperatorState :=
  { st with progress := .zero, processed_files := [], commits_done := st.commits_done + 1 }

/-- Modelled from the spec: the check performed by `generateImpl` after
each file/chunk — if the progress exceeds any threshold, a commit is
performed (and the counters reset) before processing continues. -/
def checkCommit (st : OperatorState) : OperatorState :=
  if st.progress.exceeds st.commit_settings then commitAndReset st else st

/-! ## The file-claiming iterator (`FileIterator`) -/

/-- An entry of `listed_keys_cache` (`struct ListedKeys` from the header):
a queue of cached descriptors plus the optional owning-processor tag. -/
structure CacheEntry where
  keys : List ObjectInfo
  processor : Option Processor
deriving DecidableEq, Repr

/-- The bucket-lease table of the Metadata Store: the set of live leases,
one `(bucket, owner)` pair per lease. -/
abbrev LeaseState := List (Bucket × Processor)

/-- Whether some consumer currently holds a live lease on `b`. -/
def bucketClaimed (s : LeaseState) (b : Bucket) : Bool :=
  s.any fun e => e.1 == b

/-- Modelled from the spec: the Metadata Store's
`claimBucket(bucket, processor)` primitive with single-owner-at-a-time
semantics — the claim is granted only when no live lease on the bucket
exists, otherwise it is denied and the table is unchanged. -/
def claimBucket (s : LeaseState) (b : Bucket) (p : Processor) : LeaseState :=
  if bucketClaimed s b then s else (b, p) :: s

/-- Modelled from the spec: the Metadata Store's `releaseBucket`
primitive — the given lease is removed from the table. -/
def releaseBucketLease (s : LeaseState) (b : Bucket) (p : Processor) : LeaseState :=
  s.filter fun e => e != (b, p)

/-- The owner of the live lease on `b`, if any. -/
def leaseOwner (s : LeaseState) (b : Bucket) : Option Processor :=
  match s.find? (fun e => e.1 == b) with
  | some e => some e.2
  | none => none

/-- The mutable state of one `FileIterator`: the bucket derivation
function and processing mode, the remaining output of the glob iterator,
the `iterator_finished` flag, the `listed_keys_cache`, the live bucket
leases held through `bucket_holders`, and the `objects_to_retry` queue. -/
structure FileIteratorState where
  bucketOf : Path → Bucket
  use_buckets : Bool
  glob : List ObjectInfo
  iterator_finished : Bool
  listed_keys_cache : List (Bucket × CacheEntry)
  leases : LeaseState
  objects_to_retry : List ObjectInfo

/-- The cached-key queue of bucket `b` (empty when `b` has no entry). -/
def cacheKeys (c : List (Bucket × CacheEntry)) (b : Bucket) : List ObjectInfo :=
  match c.find? (fun e => e.1 == b) with
  | some e => e.2.keys
  | none => []

/-- Append a freshly listed key to the back of bucket `b`'s cached queue,
creating the entry (tagged with the bucket's owner) if absent. -/
def cachePushBack (c : List (Bucket × CacheEntry)) (b : Bucket)
    (tag : Option Processor) (o : ObjectInfo) : List (Bucket × CacheEntry) :=
  match c with
  | [] => [(b, { keys := [o], processor := tag })]
  | e :: rest =>
    if e.1 == b then (e.1, { keys := e.2.keys ++ [o], processor := e.2.processor }) :: rest
    else e :: cachePushBack rest b tag o

/-- Push a returned key to the front of bucket `b`'s cached queue for
processor `p` (retries take priority over fresh listing). -/
def cachePushFront (c : List (Bucket × CacheEntry)) (b : Bucket)
    (p : Processor) (o : ObjectInfo) : List (Bucket × CacheEntry) :=
  match c with
  | [] => [(b, { keys := [o], processor := some p })]
  | e :: rest =>
    if e.1 == b then (e.1, { keys := o :: e.2.keys, processor := some p }) :: rest
    else e :: cachePushFront rest b p o

/-- Pop the next cached key destined for processor `p`
(`getNextKeyFromAcquiredBucket` / `hasKeysForProcessor`): the first
non-empty entry tagged with `p` yields its front key. -/
def cachePopForProcessor (c : List (Bucket × CacheEntry)) (p : Processor) :
    Option (ObjectInfo × List (Bucket × CacheEntry)) :=
  match c with
  | [] => none
  | e :: rest =>
    match e.2.keys, e.2.processor with
    | o :: ks, some q =>
      if q == p then some (o, (e.1, { keys := ks, processor := some q }) :: rest)
      else
        match cachePopForProcessor rest p with
        | some (o2, c2) => some (o2, e :: c2)
        | none => none
    | _, _ =>
      match cachePopForProcessor rest p with
      | some (o2, c2) => some (o2, e :: c2)
      | none => none

/-- All descriptors held in the cache, in entry order. -/
def allCachedKeys : List (Bucket × CacheEntry) → List ObjectInfo
  | [] => []
  | e :: rest => e.2.keys ++ allCachedKeys rest

/-- All descriptors the iterator still holds locally for later delivery:
the retry queue followed by the cached keys. -/
def pendingObjects (st : FileIteratorState) : List ObjectInfo :=
  st.objects_to_retry ++ allCachedKeys st.listed_keys_cache

/-- The outcome of one `nextImpl` call: the descriptor returned (none for
end-of-stream), the successor iterator state, and the `claimBucket` calls
issued against the Metadata Store during the call. -/
structure NextResult where
  result : Option ObjectInfo
  state : FileIteratorState
  claim_calls : List (Bucket × Processor)

/-- Modelled from the spec: the listing phase of `nextImpl` — pull
descriptors from the glob iterator; a descriptor of a bucket this
processor already holds is returned at once; a free bucket is claimed
(one `claimBucket` call) and the descriptor returned; a bucket held by
another consumer gets the descriptor cached for its owner and listing
continues; an exhausted lister sets `iterator_finished`. -/
def listLoop (p : Processor) (st : FileIteratorState) : List ObjectInfo → NextResult
  | [] => ⟨none, { st with glob := [], iterator_finished := true }, []⟩
  | o :: rest =>
    let b := st.bucketOf o.path
    if (b, p) ∈ st.leases then
      ⟨some o, { st with glob := rest }, []⟩
    else
      match leaseOwner st.leases b with
      | some q =>
        listLoop p
          { st with glob := rest,
                    listed_keys_cache := cachePushBack st.listed_keys_cache b (some q) o }
          rest
      | none =>
        ⟨some o, { st with glob := rest, leases := claimBucket st.leases b p }, [(b, p)]⟩

/-- Modelled from the spec: `nextImpl(processor)` — (1) the processor's
retry queue is checked first (FIFO); (2) with bucket processing, a cached
key of an already-acquired bucket is popped; (3) otherwise fresh
descriptors are pulled from the glob iterator (`listLoop`). -/
def next (st : FileIteratorState) (p : Processor) : NextResult :=
  match st.objects_to_retry with
  | o :: rest => ⟨some o, { st with objects_to_retry := rest }, []⟩
  | [] =>
    if st.use_buckets then
      match cachePopForProcessor st.listed_keys_cache p with
      | some (o, c2) => ⟨some o, { st with listed_keys_cache := c2 }, []⟩
      | none => listLoop p st st.glob
    else
      match st.glob with
      | [] => ⟨none, { st with iterator_finished := true }, []⟩
      | o :: rest => ⟨some o, { st with glob := rest }, []⟩

/-- Modelled from the spec: `returnForRetry(object_info)` — a previously
claimed descriptor is re-enqueued for the same processor without
re-listing and without any `claimBucket` call; with bucket processing it
goes to the front of its bucket's cached queue, without buckets it is
appended to `objects_to_retry` (which the header marks
"Only for processing without buckets").  The second component records the
`claimBucket` calls issued: none. -/
def returnForRetry (st : FileIteratorState) (p : Processor) (o : ObjectInfo) :
    FileIteratorState × List (Bucket × Processor) :=
  if st.use_buckets then
    ({ st with listed_keys_cache :=
        cachePushFront st.listed_keys_cache (st.bucketOf o.path) p o }, [])
  else
    ({ st with objects_to_retry := st.objects_to_retry ++ [o] }, [])

/-- Whether some cached-key queue still holds a descriptor. -/
def cacheHasPending (c : List (Bucket × CacheEntry)) : Bool :=
  c.any fun e => !e.2.keys.isEmpty

/-- Modelled from the spec: `isFinished()` — true once the glob iterator
is exhausted and neither the listed-keys cache nor the retry queue holds
pending work. -/
def isFinished (st : FileIteratorState) : Bool :=
  st.iterator_finished && !cacheHasPending st.listed_keys_cache
    && st.objects_to_retry.isEmpty

/-- The buckets `releaseFinishedBuckets` releases for processor `p`: those
of `p`'s leases whose cached-key queue is empty. -/
def bucketsToRelease (st : FileIteratorState) (p : Processor) : List Bucket :=
  (st.leases.filter fun e =>
      e.2 == p && (cacheKeys st.listed_keys_cache e.1).isEmpty).map (·.1)

/-- The lease table after `releaseFinishedBuckets` for processor `p`:
`p`'s leases on drained buckets are removed, all others kept. -/
def leasesAfterRelease (st : FileIteratorState) (p : Processor) : LeaseState :=
  st.leases.filter fun e =>
    !(e.2 == p && (cacheKeys st.listed_keys_cache e.1).isEmpty)

/-- Release every listed bucket in turn against the Metadata Store
backend `rel`; the first failure aborts and is returned. -/
def releaseAll (rel : Bucket → Except String Unit) : List Bucket → Except String Unit
  | [] => .ok ()
  | b :: rest =>
    match rel b with
    | .ok _ => releaseAll rel rest
    | .error e => .error e

/-- Modelled from the spec: `releaseFinishedBuckets()` — every lease this
processor holds whose cached-key queue is drained is released back to the
Metadata Store; a release failure propagates to the caller (the header:
buckets are released explicitly "because we want to be able to rethrow
exceptions"), leaving no successor state. -/
def releaseFinishedBuckets (rel : Bucket → Except String Unit)
    (st : FileIteratorState) (p : Processor) : Except String FileIteratorState :=
  match releaseAll rel (bucketsToRelease st p) with
  | .ok _ => .ok { st with leases := leasesAfterRelease st p }
  | .error e => .error e

/-! ## Reachability relations -/

/-- Modelled from the spec: the evolution of the Metadata Store's lease
table under an arbitrary interleaving of atomic claim and release calls by
any consumers (claims are checked-and-acted atomically under the store's
single-owner semantics). -/
inductive LeaseReachable : LeaseState → Prop
  | init : LeaseReachable []
  | claim (b : Bucket) (p : Processor) {s : LeaseState} :
      LeaseReachable s → LeaseReachable (claimBucket s b p)
  | release (b : Bucket) (p : Processor) {s : LeaseState} :
      LeaseReachable s → LeaseReachable (releaseBucketLease s b p)

/-- One step of the file-claiming iterator: a `nextImpl` call or a
`returnForRetry` call. -/
inductive IterStep : FileIteratorState → FileIteratorState → Prop
  | step_next {st : FileIteratorState} (p : Processor) : IterStep st (next st p).state
  | step_retry {st : FileIteratorState} (p : Processor) (o : ObjectInfo) :
      IterStep st (returnForRetry st p o).1

/-- Iterator states reachable from `init` by `next`/`returnForRetry`
calls. -/
inductive IterReachable (init : FileIteratorState) : FileIteratorState → Prop
  | refl : IterReachable init init
  | step {st st2 : FileIteratorState} :
      IterReachable init st → IterStep st st2 → IterReachable init st2

end OSQ

namespace OSQ

/-! ## Theorems -/

/-- C1: `commit(false, message)` marks every file of the open batch failed
with `message` attached (overriding any per-file exception message recorded
during reading), issues no delete/move action, and still releases the held
buckets. -/
theorem commit_failure_marks_all_failed (exception_message : String)
    (deletion_enabled : Bool) (files : List ProcessedFile) :
    (commit false exception_message deletion_enabled files).status_writes
        = files.map (fun f => (f.path, FileStatus.Failed exception_message))
      ∧ (commit false exception_message deletion_enabled files).actions = []
      ∧ (commit false exception_message deletion_enabled files).buckets_released = true := by
  refine ⟨?_, ?_, ?_⟩ <;> simp [commit]

/-- C4: whenever any of the four `CommitSettings` thresholds is exceeded by
the open batch's `ProcessingProgress`, the operator performs a commit
before continuing, and immediately after that commit all progress counters
are zero. -/
theorem threshold_exceeded_commits_and_resets (st : OperatorState)
    (h : st.progress.exceeds st.commit_settings = true) :
    (checkCommit st).commits_done = st.commits_done + 1
      ∧ (checkCommit st).progress.processed_files = 0
      ∧ (checkCommit st).progress.processed_rows = 0
      ∧ (checkCommit st).progress.processed_bytes = 0
      ∧ (checkCommit st).progress.elapsed_sec = 0
      ∧ (checkCommit st).processed_files = [] := by
  simp [checkCommit, h, commitAndReset, ProcessingProgress.zero]

/-- Witness for C4: a concrete state over thresholds (4 files against a
maximum of 3) commits and resets. -/
theorem threshold_exceeded_commits_and_resets_witness :
    (checkCommit { commit_settings := ⟨3, 1000, 10000, 60⟩
                   progress := ⟨4, 10, 100, 5⟩
                   processed_files := [initProcessedFile "a"]
                   commits_done := 0 }).commits_done = 0 + 1
      ∧ (checkCommit { commit_settings := ⟨3, 1000, 10000, 60⟩
                       progress := ⟨4, 10, 100, 5⟩
                       processed_files := [initProcessedFile "a"]
                       commits_done := 0 }).progress.processed_files = 0
      ∧ (checkCommit { commit_settings := ⟨3, 1000, 10000, 60⟩
                       progress := ⟨4, 10, 100, 5⟩
                       processed_files := [initProcessedFile "a"]
                       commits_done := 0 }).progress.processed_rows = 0
      ∧ (checkCommit { commit_settings := ⟨3, 1000, 10000, 60⟩
                       progress := ⟨4, 10, 100, 5⟩
                       processed_files := [initProcessedFile "a"]
                       commits_done := 0 }).progress.processed_bytes = 0
      ∧ (checkCommit { commit_settings := ⟨3, 1000, 10000, 60⟩
                       progress := ⟨4, 10, 100, 5⟩
                       processed_files := [initProcessedFile "a"]
                       commits_done := 0 }).progress.elapsed_sec = 0
      ∧ (checkCommit { commit_settings := ⟨3, 1000, 10000, 60⟩
                       progress := ⟨4, 10, 100, 5⟩
                       processed_files := [initProcessedFile "a"]
                       commits_done := 0 }).processed_files = [] :=
  threshold_exceeded_commits_and_resets _ (by decide)

/-- Every descriptor pushed by `cachePushFront` is among the cached
keys afterwards. -/
theorem mem_allCachedKeys_cachePushFront (c : List (Bucket × CacheEntry))
    (b : Bucket) (p : Processor) (o : ObjectInfo) :
    o ∈ allCachedKeys (cachePushFront c b p o) := by
  induction c with
  | nil => simp [cachePushFront, allCachedKeys]
  | cons e rest ih =>
    by_cases h : e.1 == b
    · simp [cachePushFront, h, allCachedKeys]
    · simp only [cachePushFront, h, Bool.false_eq_true, if_false, allCachedKeys,
        List.mem_append]
      exact Or.inr ih

/-- C3: when the retry queue is non-empty, `nextImpl` returns its oldest
element, ahead of any cached key and of any fresh descriptor from the
lister: the cache and the remaining listing are untouched and no
`claimBucket` call is issued. -/
theorem next_retry_queue_first (st : FileIteratorState) (p : Processor)
    (o : ObjectInfo) (rest : List ObjectInfo)
    (h : st.objects_to_retry = o :: rest) :
    (next st p).result = some o
      ∧ (next st p).state.objects_to_retry = rest
      ∧ (next st p).state.listed_keys_cache = st.listed_keys_cache
      ∧ (next st p).state.glob = st.glob
      ∧ (next st p).claim_calls = [] := by
  simp [next, h]

/-- A concrete iterator state for witnesses: two retried descriptors, a
cached key, and a fresh listing. -/
def retryExampleState : FileIteratorState :=
  { bucketOf := fun _ => 0
    use_buckets := true
    glob := [{ path := "queue/c.csv" }]
    iterator_finished := false
    listed_keys_cache := [(0, { keys := [{ path := "queue/b.csv" }], processor := some 0 })]
    leases := [(0, 0)]
    objects_to_retry := [{ path := "queue/a.csv" }, { path := "queue/a2.csv" }] }

/-- Witness for C3: on `retryExampleState` the retried `queue/a.csv` is
returned first and nothing else moves. -/
theorem next_retry_queue_first_witness :
    (next retryExampleState 0).result = some { path := "queue/a.csv" }
      ∧ (next retryExampleState 0).state.objects_to_retry = [{ path := "queue/a2.csv" }]
      ∧ (next retryExampleState 0).state.listed_keys_cache
          = retryExampleState.listed_keys_cache
      ∧ (next retryExampleState 0).state.glob = retryExampleState.glob
      ∧ (next retryExampleState 0).claim_calls = [] :=
  next_retry_queue_first retryExampleState 0 { path := "queue/a.csv" }
    [{ path := "queue/a2.csv" }] rfl

/-- C8: `isFinished()` is true exactly when the glob iterator is
exhausted (`iterator_finished`) and neither the listed-keys cache nor the
retry queue holds pending work. -/
theorem isFinished_iff_no_pending_work (st : FileIteratorState) :
    isFinished st = true ↔
      st.iterator_finished = true
        ∧ (∀ e ∈ st.listed_keys_cache, e.2.keys = [])
        ∧ st.objects_to_retry = [] := by
  simp [isFinished, cacheHasPending, List.any_eq_true, List.isEmpty_iff,
    Bool.and_eq_true, not_exists]
  tauto

/-- C9: `returnForRetry` on a descriptor of a bucket whose lease the
processor already holds re-enqueues the descriptor for that processor
while issuing no `claimBucket` call, leaving the lease table unchanged
and consuming nothing from the lister. -/
theorem returnForRetry_no_reclaim (st : FileIteratorState) (p : Processor)
    (o : ObjectInfo) (_h : (st.bucketOf o.path, p) ∈ st.leases) :
    (returnForRetry st p o).2 = []
      ∧ (returnForRetry st p o).1.leases = st.leases
      ∧ (returnForRetry st p o).1.glob = st.glob
      ∧ o ∈ pendingObjects (returnForRetry st p o).1 := by
  by_cases hb : st.use_buckets
  · refine ⟨?_, ?_, ?_, ?_⟩ <;>
      simp [returnForRetry, hb, pendingObjects, mem_allCachedKeys_cachePushFront]
  · refine ⟨?_, ?_, ?_, ?_⟩ <;> simp [returnForRetry, hb, pendingObjects]

/-- Witness for C9: returning `queue/b.csv` (bucket 0, whose lease
processor 0 holds in `retryExampleState`) re-enqueues it without touching
leases, listing or claim calls. -/
theorem returnForRetry_no_reclaim_witness :
    (returnForRetry retryExampleState 0 { path := "queue/b.csv" }).2 = []
      ∧ (returnForRetry retryExampleState 0 { path := "queue/b.csv" }).1.leases
          = retryExampleState.leases
      ∧ (returnForRetry retryExampleState 0 { path := "queue/b.csv" }).1.glob
          = retryExampleState.glob
      ∧ ({ path := "queue/b.csv" } : ObjectInfo)
          ∈ pendingObjects (returnForRetry retryExampleState 0 { path := "queue/b.csv" }).1 :=
  returnForRetry_no_reclaim retryExampleState 0 { path := "queue/b.csv" } (by decide)

/-- C5: `releaseFinishedBuckets` never releases a bucket whose listed-keys
cache is non-empty — such a bucket is not among the buckets to release,
and any lease on it survives the release. -/
theorem release_skips_undrained_bucket (st : FileIteratorState)
    (p q : Processor) (b : Bucket)
    (hc : cacheKeys st.listed_keys_cache b ≠ [])
    (hl : (b, q) ∈ st.leases) :
    b ∉ bucketsToRelease st p ∧ (b, q) ∈ leasesAfterRelease st p := by
  have hne : (cacheKeys st.listed_keys_cache b).isEmpty = false := by
    cases he : cacheKeys st.listed_keys_cache b with
    | nil => exact absurd he hc
    | cons x xs => simp
  constructor
  · intro hmem
    simp only [bucketsToRelease, List.mem_map, List.mem_filter] at hmem
    obtain ⟨e, ⟨_, hpred⟩, hfst⟩ := hmem
    rw [hfst] at hpred
    rw [hne] at hpred
    simp at hpred
  · simp only [leasesAfterRelease, List.mem_filter]
    refine ⟨hl, ?_⟩
    simp [hne]

/-- A concrete iterator state for witnesses of the release claims: bucket
0 still has a cached key, bucket 1 is drained; processor 0 holds both. -/
def releaseExampleState : FileIteratorState :=
  { bucketOf := fun _ => 0
    use_buckets := true
    glob := []
    iterator_finished := true
    listed_keys_cache := [(0, { keys := [{ path := "queue/d.csv" }], processor := some 0 })]
    leases := [(0, 0), (1, 0)]
    objects_to_retry := [] }

/-- Witness for C5: in `releaseExampleState`, bucket 0 (cached key
pending) is not released and its lease survives. -/
theorem release_skips_undrained_bucket_witness :
    0 ∉ bucketsToRelease releaseExampleState 0
      ∧ ((0, 0) : Bucket × Processor) ∈ leasesAfterRelease releaseExampleState 0 :=
  release_skips_undrained_bucket releaseExampleState 0 0 0 (by decide) (by decide)

/-- `releaseAll` succeeds exactly when the backend accepts every listed
bucket's release. -/
theorem releaseAll_ok_iff (rel : Bucket → Except String Unit) (l : List Bucket) :
    releaseAll rel l = .ok () ↔ ∀ b ∈ l, rel b = .ok () := by
  induction l with
  | nil => simp [releaseAll]
  | cons b rest ih =>
    cases hb : rel b with
    | ok u =>
      cases u
      simp [releaseAll, hb, ih]
    | error e => simp [releaseAll, hb]

/-- C6: when releasing some to-be-released bucket's lease fails against
the Metadata Store, `releaseFinishedBuckets` propagates the failure to
its caller instead of swallowing it. -/
theorem release_error_propagates (rel : Bucket → Except String Unit)
    (st : FileIteratorState) (p : Processor) (b : Bucket) (msg : String)
    (hb : b ∈ bucketsToRelease st p)
    (he : rel b = .error msg) :
    (releaseFinishedBuckets rel st p).isOk = false := by
  cases hra : releaseAll rel (bucketsToRelease st p) with
  | ok u =>
    cases u
    have hok := (releaseAll_ok_iff rel (bucketsToRelease st p)).mp hra b hb
    rw [he] at hok
    exact absurd hok (by simp)
  | error e => simp [releaseFinishedBuckets, hra, Except.isOk, Except.toBool]

/-- Witness for C6: in `releaseExampleState` the drained bucket 1 is due
for release; a backend that fails its release makes
`releaseFinishedBuckets` return the error. -/
theorem release_error_propagates_witness :
    (releaseFinishedBuckets (fun _ => .error "session expired")
        releaseExampleState 0).isOk = false :=
  release_error_propagates (fun _ => .error "session expired")
    releaseExampleState 0 1 "session expired" (by decide) rfl

/-- C7: a tracked file's state starts as `Processing` on claim
(the `ProcessedFile` constructor in the header), every transition of the
per-file state machine goes from `Processing` to one of the terminal
states `Processed`, `ErrorOnRead`, `Cancelled`, and a file in a terminal
state never transitions again. -/
theorem file_state_machine_sound :
    (∀ path : Path, (initProcessedFile path).state = FileState.Processing)
      ∧ (∀ s t : FileState, FileTransition s t →
          s = FileState.Processing ∧ t.isTerminal = true)
      ∧ (∀ s t : FileState, s.isTerminal = true → ¬ FileTransition s t) := by
  refine ⟨fun _ => rfl, ?_, ?_⟩
  · intro s t h
    cases h <;> exact ⟨rfl, rfl⟩
  · intro s t hs h
    cases h <;> simp [FileState.isTerminal] at hs

/-- Every reachable lease table has pairwise distinct buckets: the
single-owner-at-a-time discipline of `claimBucket` is an invariant. -/
theorem leaseReachable_pairwise {s : LeaseState} (h : LeaseReachable s) :
    s.Pairwise fun x y => x.1 ≠ y.1 := by
  induction h with
  | init => exact List.Pairwise.nil
  | claim b p hs ih =>
    rename_i s0
    by_cases hc : bucketClaimed s0 b
    · simpa [claimBucket, hc] using ih
    · have hfree : ∀ y ∈ s0, y.1 ≠ b := by
        intro y hy hcontra
        apply hc
        simp only [bucketClaimed, List.any_eq_true]
        exact ⟨y, hy, by simp [hcontra]⟩
      simp only [claimBucket, hc, Bool.false_eq_true, if_false]
      exact List.Pairwise.cons (fun y hy => (hfree y hy).symm) ih
  | release b p hs ih =>
    exact ih.sublist (List.filter_sublist _)

/-- C2: in every lease table reachable by interleaved claim/release calls
against the Metadata Store, at most one consumer holds a live lease on any
bucket: two live leases on the same bucket belong to the same processor. -/
theorem bucket_lease_mutual_exclusion (s : LeaseState) (h : LeaseReachable s)
    (b : Bucket) (p q : Processor)
    (hp : (b, p) ∈ s) (hq : (b, q) ∈ s) : p = q := by
  by_cases heq : p = q
  · exact heq
  · exfalso
    have hne : ((b, p) : Bucket × Processor) ≠ (b, q) := by
      intro hcontra
      exact heq (congrArg Prod.snd hcontra)
    have hsymm : Symmetric fun x y : Bucket × Processor => x.1 ≠ y.1 :=
      fun _ _ hxy => hxy.symm
    exact ((leaseReachable_pairwise h).forall hsymm hp hq hne) rfl

/-- Witness for C2: after processor 3 claims bucket 0 and processor 5
claims bucket 1, the two holders of bucket 0 coincide. -/
theorem bucket_lease_mutual_exclusion_witness : (3 : Processor) = 3 :=
  bucket_lease_mutual_exclusion [(1, 5), (0, 3)]
    (LeaseReachable.claim 1 5 (LeaseReachable.claim 0 3 LeaseReachable.init))
    0 3 3 (by decide) (by decide)

/-- The listing phase never flips the processing mode. -/
theorem listLoop_use_buckets (p : Processor) (st : FileIteratorState)
    (l : List ObjectInfo) : (listLoop p st l).state.use_buckets = st.use_buckets := by
  induction l generalizing st with
  | nil => rfl
  | cons o rest ih =>
    simp only [listLoop]
    split
    · rfl
    · split
      · exact ih _
      · rfl

/-- The listing phase never touches the retry queue. -/
theorem listLoop_objects_to_retry (p : Processor) (st : FileIteratorState)
    (l : List ObjectInfo) :
    (listLoop p st l).state.objects_to_retry = st.objects_to_retry := by
  induction l generalizing st with
  | nil => rfl
  | cons o rest ih =>
    simp only [listLoop]
    split
    · rfl
    · split
      · exact ih _
      · rfl

/-- `nextImpl` never flips the processing mode. -/
theorem next_use_buckets (st : FileIteratorState) (p : Processor) :
    (next st p).state.use_buckets = st.use_buckets := by
  cases hr : st.objects_to_retry with
  | cons o rest => simp [next, hr]
  | nil =>
    by_cases hb : st.use_buckets
    · cases hc : cachePopForProcessor st.listed_keys_cache p with
      | some v => simp [next, hr, hb, hc]
      | none => simp [next, hr, hb, hc, listLoop_use_buckets]
    · cases hg : st.glob with
      | nil => simp [next, hr, hb, hg]
      | cons o rest => simp [next, hr, hb, hg]

/-- `nextImpl` never places a descriptor into an empty retry queue. -/
theorem next_keeps_retry_empty (st : FileIteratorState) (p : Processor)
    (h : st.objects_to_retry = []) :
    (next st p).state.objects_to_retry = [] := by
  by_cases hb : st.use_buckets
  · cases hc : cachePopForProcessor st.listed_keys_cache p with
    | some v => simp [next, h, hb, hc]
    | none => simp [next, h, hb, hc, listLoop_objects_to_retry]
  · cases hg : st.glob with
    | nil => simp [next, h, hb, hg]
    | cons o rest => simp [next, h, hb, hg]

/-- `returnForRetry` never flips the processing mode. -/
theorem returnForRetry_use_buckets (st : FileIteratorState) (p : Processor)
    (o : ObjectInfo) : (returnForRetry st p o).1.use_buckets = st.use_buckets := by
  by_cases hb : st.use_buckets <;> simp [returnForRetry, hb]

/-- With bucket processing, `returnForRetry` goes through the listed-keys
cache and leaves the retry queue alone. -/
theorem returnForRetry_keeps_retry_of_buckets (st : FileIteratorState)
    (p : Processor) (o : ObjectInfo) (hb : st.use_buckets = true) :
    (returnForRetry st p o).1.objects_to_retry = st.objects_to_retry := by
  simp [returnForRetry, hb]

/-- C10: starting from a bucket-processing iterator with an empty retry
queue, no sequence of `nextImpl`/`returnForRetry` calls ever puts a
descriptor into `objects_to_retry` — the queue is only for processing
without buckets and stays empty. -/
theorem retry_queue_unused_with_buckets (init st : FileIteratorState)
    (hb : init.use_buckets = true) (hr : init.objects_to_retry = [])
    (h : IterReachable init st) :
    st.objects_to_retry = [] ∧ st.use_buckets = true := by
  induction h with
  | refl => exact ⟨hr, hb⟩
  | step hreach hstep ih =>
    obtain ⟨ih1, ih2⟩ := ih
    cases hstep with
    | step_next p =>
      exact ⟨next_keeps_retry_empty _ p ih1, by rw [next_use_buckets]; exact ih2⟩
    | step_retry p o =>
      refine ⟨?_, by rw [returnForRetry_use_buckets]; exact ih2⟩
      rw [returnForRetry_keeps_retry_of_buckets _ _ _ ih2]
      exact ih1

/-- A concrete bucket-processing iterator state for the C10 witness. -/
def bucketExampleState : FileIteratorState :=
  { bucketOf := fun _ => 2
    use_buckets := true
    glob := [{ path := "queue/e.csv" }]
    iterator_finished := false
    listed_keys_cache := []
    leases := []
    objects_to_retry := [] }

/-- Witness for C10: after one `next` call (which claims bucket 2 and
returns `queue/e.csv`) followed by one `returnForRetry` of that
descriptor, the retry queue is still empty. -/
theorem retry_queue_unused_with_buckets_witness :
    (returnForRetry (next bucketExampleState 0).state 0
        { path := "queue/e.csv" }).1.objects_to_retry = []
      ∧ (returnForRetry (next bucketExampleState 0).state 0
          { path := "queue/e.csv" }).1.use_buckets = true :=
  retry_queue_unused_with_buckets bucketExampleState _ rfl rfl
    (IterReachable.step (IterReachable.step IterReachable.refl (IterStep.step_next 0))
      (IterStep.step_retry 0 { path := "queue/e.csv" }))

end OSQ
